import Mathlib

/-!
# Plant-monitor firmware: one-wire bus driver and spray controller

A shallow embedding of `src/main.cpp`.

* The data pin `dataPin` and everything the driver does to it is a value of `Bus`:
  pin direction, output latch, the levels the line shows at successive samples (the
  behaviour of whatever is attached to the line), and the trace of pin operations and waits.
* `reset`, `writeBit`, `writeByte`, `readBit`, `readByte`, `readTemperature` follow the
  functions of the same name statement by statement.
* `uint8_t` values are natural numbers reduced modulo 256, `int16_t` is an integer obtained
  by two's-complement wrap-around of a 16 bit pattern.
* Temperatures are rational numbers.  Every value the program computes is `s * 0.0625` for
  a 16 bit signed `s`, or the literal `-999.0`; these are represented exactly both as
  `double` and as `float`, and every comparison in the program is against `-999.0`,
  `-55.0`, `125.0` or `28.0`, so the rational model agrees with the machine arithmetic.
-/

namespace Firmware

/-! ## The data line -/

/-- Direction of the bidirectional pin `dataPin`. -/
inductive PinMode where
  | input
  | output
  deriving DecidableEq

/-- The three bit-level primitives of the driver; used to mark calls in the trace. -/
inductive Prim where
  | reset
  | writeBit (bit : Bool)
  | readBit
  deriving DecidableEq

/-- One observable action on the data line. `call` is a marker recording that a primitive
was entered (with its argument); `output`, `drive`, `input`, `waitUs`, `read` and `sleepMs`
are the pin operations and waits of the source. `critEnter` and `critExit` stand for
entering and leaving a critical section (interrupts and preemption suppressed in between);
no statement of `src/main.cpp` performs them, so no operation of the model emits them. -/
inductive Ev where
  | call (p : Prim)
  | output
  | drive (level : Bool)
  | input
  | waitUs (us : Nat)
  | read (level : Bool)
  | sleepMs (ms : Nat)
  | critEnter
  | critExit
  deriving DecidableEq

/-- State of the data line as seen by the driver. `line k` is the level the line shows at
the `k`-th sample taken while the pin is released; `reads` counts the samples taken so
far; `trace` lists the actions performed, oldest first. -/
structure Bus where
  mode : PinMode
  latch : Bool
  line : Nat → Bool
  reads : Nat
  trace : List Ev

namespace Bus

/-- Model of `dataPin.output()`. -/
def output (bus : Bus) : Bus :=
  { bus with mode := PinMode.output, trace := bus.trace ++ [Ev.output] }

/-- Model of `dataPin = level`. -/
def assign (level : Bool) (bus : Bus) : Bus :=
  { bus with latch := level, trace := bus.trace ++ [Ev.drive level] }

/-- Model of `dataPin.input()`. -/
def input (bus : Bus) : Bus :=
  { bus with mode := PinMode.input, trace := bus.trace ++ [Ev.input] }

/-- Model of `wait_us(us)`. -/
def wait_us (us : Nat) (bus : Bus) : Bus :=
  { bus with trace := bus.trace ++ [Ev.waitUs us] }

/-- Model of `ThisThread::sleep_for(ms)` inside the acquisition. -/
def sleep_for (ms : Nat) (bus : Bus) : Bus :=
  { bus with trace := bus.trace ++ [Ev.sleepMs ms] }

/-- Model of `dataPin.read()`: a released pin shows the next level of the line, a driven
pin shows its own latch. -/
def read (bus : Bus) : Bool × Bus :=
  match bus.mode with
  | PinMode.input =>
    (bus.line bus.reads,
      { bus with reads := bus.reads + 1, trace := bus.trace ++ [Ev.read (bus.line bus.reads)] })
  | PinMode.output =>
    (bus.latch, { bus with trace := bus.trace ++ [Ev.read bus.latch] })

/-- Ghost step: record that a primitive is entered. -/
def enter (p : Prim) (bus : Bus) : Bus :=
  { bus with trace := bus.trace ++ [Ev.call p] }

end Bus

/-! ## Bus driver (`src/main.cpp` lines 59-113) -/

/-- Model of `bool reset()`. -/
def reset (bus : Bus) : Bool × Bus :=
  let bus := bus.enter Prim.reset
  let bus := bus.output
  let bus := bus.assign false
  let bus := bus.wait_us 480
  let bus := bus.input
  let bus := bus.wait_us 70
  let r := bus.read
  let presence := !r.1
  let bus := r.2.wait_us 410
  (presence, bus)

/-- Model of `void writeBit(bool bit)`. -/
def writeBit (bit : Bool) (bus : Bus) : Bus :=
  let bus := bus.enter (Prim.writeBit bit)
  let bus := bus.output
  let bus := bus.assign false
  let bus := bus.wait_us (if bit then 6 else 60)
  let bus := bus.input
  bus.wait_us (if bit then 64 else 10)

/-- The loop of `writeByte` with `n` iterations left: `writeBit(byte & 0x01); byte >>= 1;`. -/
def writeByteLoop : Nat → Nat → Bus → Bus
  | 0, _, bus => bus
  | n + 1, byte, bus =>
    writeByteLoop n ((byte >>> 1) % 256) (writeBit (byte &&& 1 != 0) bus)

/-- Model of `void writeByte(uint8_t byte)`. -/
def writeByte (byte : Nat) (bus : Bus) : Bus :=
  writeByteLoop 8 (byte % 256) bus

/-- Model of `bool readBit()`. -/
def readBit (bus : Bus) : Bool × Bus :=
  let bus := bus.enter Prim.readBit
  let bus := bus.output
  let bus := bus.assign false
  let bus := bus.wait_us 6
  let bus := bus.input
  let bus := bus.wait_us 9
  let r := bus.read
  let bit := r.1
  let bus := r.2.wait_us 55
  (bit, bus)

/-- The loop of `readByte` with `n` iterations left, loop counter `i` and accumulator
`value`: `if (readBit()) value |= (1 << i);`. -/
def readByteLoop : Nat → Nat → Nat → Bus → Nat × Bus
  | 0, _, value, bus => (value, bus)
  | n + 1, i, value, bus =>
    let r := readBit bus
    readByteLoop n (i + 1) (if r.1 then (value ||| (1 <<< i)) % 256 else value) r.2

/-- Model of `uint8_t readByte()`. -/
def readByte (bus : Bus) : Nat × Bus :=
  readByteLoop 8 0 0 bus

/-! ## Acquisition (`src/main.cpp` lines 116-143) -/

/-- The value `-999.0` returned when every retry failed. -/
def failureMarker : ℚ := -999

/-- Conversion of an `int` holding a 16 bit pattern to `int16_t` (wrap-around). -/
def toInt16 (n : Nat) : Int :=
  if n % 65536 < 32768 then (n % 65536 : Nat) else ((n % 65536 : Nat) : Int) - 65536

/-- Model of `int16_t rawTemp = (msb << 8) | lsb;`. -/
def rawTemp (lsb msb : Nat) : Int :=
  toInt16 ((msb <<< 8) ||| lsb)

/-- Model of `float temperature = rawTemp * 0.0625;`. -/
def scaled (lsb msb : Nat) : ℚ :=
  (rawTemp lsb msb : ℚ) * 0.0625

/-- One pass through the body of the retry loop of `readTemperature`. The result is
`some t` when the pass ends in `return temperature`, and `none` when it ends in one of the
two `continue` statements or falls off the end of the body. -/
def attempt (bus : Bus) : Option ℚ × Bus :=
  let r1 := reset bus
  if !r1.1 then (none, r1.2) else
  let bus := writeByte 0xCC r1.2
  let bus := writeByte 0x44 bus
  let bus := bus.sleep_for 800
  let r2 := reset bus
  if !r2.1 then (none, r2.2) else
  let bus := writeByte 0xCC r2.2
  let bus := writeByte 0xBE bus
  let lsb := readByte bus
  let msb := readByte lsb.2
  let temperature := scaled lsb.1 msb.1
  if temperature ≥ -55 ∧ temperature ≤ 125 then (some temperature, msb.2) else (none, msb.2)

/-- The loop `while (retries--) { ... }` with `retries` passes left, followed by
`return -999.0;`. -/
def readTemperatureLoop : Nat → Bus → ℚ × Bus
  | 0, bus => (failureMarker, bus)
  | retries + 1, bus =>
    match attempt bus with
    | (some temperature, bus) => (temperature, bus)
    | (none, bus) => readTemperatureLoop retries bus

/-- Model of `float readTemperature()`: `int retries = 3;` and the retry loop. -/
def readTemperature (bus : Bus) : ℚ × Bus :=
  readTemperatureLoop 3 bus

/-! ## Board state and output collaborators -/

/-- A line handed to `print_message`. The formatted reading
`"Current Temperature: %.2f ..."` is kept as a constructor of its own, carrying the value
that is formatted. -/
inductive Msg where
  | text (s : String)
  | currentTemperature (temperature : ℚ)
  deriving DecidableEq

/-- An operation on the character display; `scrollText` is the display routine of lines
23-51, taken as one operation of the display collaborator. -/
inductive LcdOp where
  | cls
  | locate (col row : Nat)
  | printf (s : String)
  | scrollText (message : String) (row delay_ms : Nat)
  deriving DecidableEq

/-- The globals of the program that the controller touches, the locals of
`temperatureSprayMode` (`lastValidTemperature`, `hasValidReading`) and of `main`
(`lastSignalState`), and the output produced so far: `motorWrites` lists every value
assigned to `motorControl`, `serial` every message printed and `lcd` every display
operation, oldest first. -/
structure Sys where
  motorControl : Bool
  trigger : Bool
  lastValidTemperature : ℚ
  hasValidReading : Bool
  lastSignalState : Bool
  motorWrites : List Bool
  serial : List Msg
  lcd : List LcdOp

namespace Sys

/-- Model of `print_message(message)`. -/
def print_message (m : Msg) (s : Sys) : Sys :=
  { s with serial := s.serial ++ [m] }

/-- Model of `motorControl = v`. -/
def setMotor (v : Bool) (s : Sys) : Sys :=
  { s with motorControl := v, motorWrites := s.motorWrites ++ [v] }

/-- Model of one call on `lcd` (or of `scrollText(lcd, ...)`). -/
def display (op : LcdOp) (s : Sys) : Sys :=
  { s with lcd := s.lcd ++ [op] }

end Sys

/-! ## Spray controller (`src/main.cpp` lines 146-252) -/

/-- What one iteration of the control loop observes: the value returned by
`readTemperature()` and the outcome of the exit poll (`none` when `pc.readable()` is
false, `some c` when the byte `c` is read). -/
structure Tick where
  temperature : ℚ
  poll : Option Char

/-- Lines 161-228: the body of the loop from the acquisition up to the exit poll, for the
value `temperature` returned by `readTemperature()`. -/
def thresholdStep (temperature : ℚ) (s : Sys) : Sys :=
  if temperature ≠ failureMarker then
    let s := { s with lastValidTemperature := temperature, hasValidReading := true }
    let s := s.print_message (Msg.currentTemperature temperature)
    if temperature > 28 then
      if s.motorControl = false then
        let s := s.setMotor true
        let s := s.print_message (Msg.text "Motor ON - Temperature above threshold\r\n")
        let s := s.display LcdOp.cls
        let s := s.display (LcdOp.locate 0 0)
        let s := s.display (LcdOp.scrollText "Disease Alert - High Temp Detected" 0 300)
        s.display (LcdOp.scrollText "Spraying Medicine Now" 1 300)
      else s
    else
      if s.motorControl = true then
        let s := s.setMotor false
        let s := s.print_message (Msg.text "Motor OFF - Temperature below threshold\r\n")
        let s := s.display LcdOp.cls
        let s := s.display (LcdOp.locate 0 0)
        let s := s.display (LcdOp.scrollText "Disease Alert - Temp Normalized" 0 300)
        let s := s.display (LcdOp.locate 0 1)
        s.display (LcdOp.printf "Motor OFF")
      else s
  else
    if s.hasValidReading then
      if s.lastValidTemperature > 28 then
        if s.motorControl = false then
          let s := s.setMotor true
          let s := s.print_message (Msg.text "Motor ON - Using last valid temperature\r\n")
          let s := s.display LcdOp.cls
          let s := s.display (LcdOp.locate 0 0)
          let s := s.display (LcdOp.scrollText "Disease Alert - Using Last Reading" 0 300)
          s.display (LcdOp.scrollText "Spraying Medicine" 1 300)
        else s
      else
        if s.motorControl = true then
          let s := s.setMotor false
          let s := s.print_message (Msg.text "Motor OFF - Using last valid temperature\r\n")
          let s := s.display LcdOp.cls
          let s := s.display (LcdOp.locate 0 0)
          let s := s.display (LcdOp.scrollText "Disease Alert - Using Last Reading" 0 300)
          let s := s.display (LcdOp.locate 0 1)
          s.display (LcdOp.printf "Motor OFF")
        else s
    else s

/-- Lines 231-248: the exit poll. The second component is `true` when the loop is left
(`exitMode = true; break;`). -/
def exitPoll (poll : Option Char) (s : Sys) : Sys × Bool :=
  match poll with
  | none => (s, false)
  | some c =>
    if c = 'x' then
      let s := s.print_message (Msg.text "Exiting Temperature Spray Mode...\r\n")
      let s := s.setMotor false
      let s := s.display LcdOp.cls
      let s := s.display (LcdOp.locate 0 0)
      let s := s.display (LcdOp.printf "Plant Monitor")
      let s := s.display (LcdOp.locate 0 1)
      let s := s.display (LcdOp.printf "System Ready")
      (s, true)
    else (s, false)

/-- Where a run of the control loop stands once the observed ticks are used up:
`returned` when the loop was left and `temperatureSprayMode` returned, `running` when the
loop is at the head of its next iteration. -/
inductive Outcome where
  | returned (s : Sys)
  | running (s : Sys)

/-- The state carried by an outcome. -/
def Outcome.sys : Outcome → Sys
  | Outcome.returned s => s
  | Outcome.running s => s

/-- The loop `while (!exitMode) { ... }` of lines 160-251, run on the ticks observed. The
wait of 500 ms at the end of the body has no effect on the state. -/
def sprayLoop : List Tick → Sys → Outcome
  | [], s => Outcome.running s
  | t :: rest, s =>
    let s := thresholdStep t.temperature s
    match exitPoll t.poll s with
    | (s, true) => Outcome.returned s
    | (s, false) => sprayLoop rest s

/-- Lines 147-158: the entry of `temperatureSprayMode` up to the loop. The local
`lastMotorState` is read from `motorControl` and never used. -/
def sprayEntry (s : Sys) : Sys :=
  let s := s.print_message (Msg.text "Entering Temperature Spray Mode...\r\n")
  let s := s.display LcdOp.cls
  let s := s.display (LcdOp.locate 0 0)
  let s := s.display (LcdOp.printf "ALERT!")
  let s := s.display (LcdOp.scrollText "Disease Detected - Starting Treatment System" 1 300)
  { s with lastValidTemperature := 0, hasValidReading := false }

/-- Model of `void temperatureSprayMode()`. -/
def temperatureSprayMode (ticks : List Tick) (s : Sys) : Outcome :=
  sprayLoop ticks (sprayEntry s)

/-- The control loop with the acquisition of each iteration run on the data line: the
loop of lines 160-251 with `readTemperature()` called on the bus, for the exit polls
`polls`. -/
def sprayLoopOnBus : List (Option Char) → Bus → Sys → Outcome
  | [], _, s => Outcome.running s
  | poll :: rest, bus, s =>
    let r := readTemperature bus
    let s := thresholdStep r.1 s
    match exitPoll poll s with
    | (s, true) => Outcome.returned s
    | (s, false) => sprayLoopOnBus rest r.2 s

/-- The ticks a session observes when its acquisitions run on the bus `bus` and its exit
polls read `polls`. -/
def ticksOnBus : List (Option Char) → Bus → List Tick
  | [], _ => []
  | poll :: rest, bus =>
    { temperature := (readTemperature bus).1, poll := poll } ::
      ticksOnBus rest (readTemperature bus).2

/-! ## Top level (`src/main.cpp` lines 254-324) -/

/-- What one iteration of the loop of `main` observes: the serial poll, the level of
`esp32Signal`, and the ticks observed by the treatment session if one is entered. -/
structure MainTick where
  poll : Option Char
  signal : Bool
  session : List Tick

/-- Where a run of `main` stands once the observed ticks are used up: at the head of an
iteration of the loop of `main`, or inside `temperatureSprayMode` at the head of an
iteration of the control loop, having observed the ticks `seen` in that session. -/
inductive Where where
  | atMain (s : Sys)
  | inSession (seen : List Tick) (s : Sys)

/-- Lines 255-268: the start of `main` up to its loop. -/
def mainInit (s : Sys) : Sys :=
  let s := s.print_message (Msg.text "FRDM-K64F Integrated System\r\n")
  let s := s.print_message (Msg.text "Press Enter to trigger ESP32 image capture\r\n")
  let s := s.print_message (Msg.text
    "System will automatically enter temperature spray mode if unhealthy plant is detected\r\n")
  let s := s.setMotor false
  let s := s.display LcdOp.cls
  let s := s.display (LcdOp.locate 0 0)
  let s := s.display (LcdOp.printf "Plant Monitor")
  let s := s.display (LcdOp.locate 0 1)
  let s := s.display (LcdOp.scrollText "System Ready - Press Enter to Start" 1 300)
  { s with lastSignalState := false }

/-- Lines 274-297: the serial poll of `main`; on a carriage return the trigger pin is
pulsed. -/
def mainPoll (poll : Option Char) (s : Sys) : Sys :=
  match poll with
  | none => s
  | some c =>
    if c = '\r' then
      let s := { s with trigger := true }
      let s := s.display LcdOp.cls
      let s := s.display (LcdOp.locate 0 0)
      let s := s.display (LcdOp.printf "Sending Signal")
      let s := s.display (LcdOp.scrollText "To ESP32 Camera System..." 1 300)
      let s := { s with trigger := false }
      let s := s.print_message (Msg.text "Trigger signal sent to ESP32 for image capture!\r\n")
      let s := s.display LcdOp.cls
      let s := s.display (LcdOp.locate 0 0)
      let s := s.display (LcdOp.printf "Plant Monitor")
      s.display (LcdOp.scrollText "Waiting for Analysis Result..." 1 300)
    else s

/-- Lines 303-311: the announcement of a detection, up to the call of
`temperatureSprayMode`. -/
def announce (s : Sys) : Sys :=
  let s := s.print_message
    (Msg.text "Signal HIGH received from ESP32 - UNHEALTHY PLANT DETECTED\r\n")
  let s := s.print_message (Msg.text "Starting temperature-controlled spray system\r\n")
  let s := s.display LcdOp.cls
  let s := s.display (LcdOp.locate 0 0)
  let s := s.display (LcdOp.printf "ESP32 Signal")
  s.display (LcdOp.scrollText "Plant Disease Detected! Starting Treatment" 1 300)

/-- Lines 271-322: one iteration of the loop of `main`. -/
def mainIteration (t : MainTick) (s : Sys) : Where :=
  let s := mainPoll t.poll s
  let currentSignalState := t.signal
  if currentSignalState && !s.lastSignalState then
    let s := announce s
    match temperatureSprayMode t.session s with
    | Outcome.running s => Where.inSession t.session s
    | Outcome.returned s =>
      let s := s.print_message (Msg.text
        "Returned to main mode. Press Enter to trigger ESP32 for new image.\r\n")
      Where.atMain { s with lastSignalState := currentSignalState }
  else
    Where.atMain { s with lastSignalState := currentSignalState }

/-- The loop `while (true) { ... }` of `main`, run on the ticks observed. A session that
has not returned keeps the program inside `temperatureSprayMode`. -/
def mainLoop : List MainTick → Sys → Where
  | [], s => Where.atMain s
  | t :: rest, s =>
    match mainIteration t s with
    | Where.atMain s => mainLoop rest s
    | Where.inSession seen s => Where.inSession seen s

/-- Model of `int main()`, started with the board in state `s`. -/
def main (ticks : List MainTick) (s : Sys) : Where :=
  mainLoop ticks (mainInit s)

/-! ## Notions used to state the properties -/

/-- The temperature the threshold rule applies to after the readings `readings` of a
session (oldest first): the most recent reading that is not the failure marker, if there
is one. -/
def applicable (readings : List ℚ) : Option ℚ :=
  readings.foldl (fun acc t => if t ≠ failureMarker then some t else acc) none

/-- What the locals of the session say about the readings so far: the last valid reading
when `hasValidReading` is set. -/
def Sys.known (s : Sys) : Option ℚ :=
  if s.hasValidReading then some s.lastValidTemperature else none

/-- What is known at a point of a session in which the readings `readings` were returned
so far: an actuator that is on has a valid reading above the cutoff behind it, and the
remembered temperature is one of the valid readings. -/
def SessionInv (readings : List ℚ) (s : Sys) : Prop :=
  (s.motorControl = true → ∃ r ∈ readings, r ≠ failureMarker ∧ r > 28) ∧
  (∀ T, s.known = some T → T ∈ readings ∧ T ≠ failureMarker)

/-- A board on which nothing has happened yet and the actuator is off. -/
def boardOff : Sys :=
  { motorControl := false, trigger := false, lastValidTemperature := 0,
    hasValidReading := false, lastSignalState := false, motorWrites := [], serial := [],
    lcd := [] }

/-- A board on which the actuator is on (as no run of `main` leaves it when
`temperatureSprayMode` is called). -/
def boardOn : Sys :=
  { boardOff with motorControl := true }

/-- The number whose binary digits, from weight `2 ^ i` upwards, are the `n` levels the
line shows from its sample number `start` on (high is 1). -/
def lineValue (line : Nat → Bool) : Nat → Nat → Nat → Nat
  | _, _, 0 => 0
  | start, i, n + 1 => (if line start then 2 ^ i else 0) + lineValue line (start + 1) (i + 1) n

/-- The byte that is on the line, least significant bit first, in the eight samples from
sample number `start` on. -/
def lineByte (line : Nat → Bool) (start : Nat) : Nat :=
  lineValue line start 0 8

/-- The bits handed to `writeBit`, in the order of the calls recorded in a trace. -/
def writtenBits : List Ev → List Bool
  | [] => []
  | Ev.call (Prim.writeBit bit) :: rest => bit :: writtenBits rest
  | _ :: rest => writtenBits rest

/-- The pin operations and waits of one call of `reset` that samples the level `level`. -/
def resetEvents (level : Bool) : List Ev :=
  [Ev.call Prim.reset, Ev.output, Ev.drive false, Ev.waitUs 480, Ev.input, Ev.waitUs 70,
    Ev.read level, Ev.waitUs 410]

/-- The temperature that is on the line for an attempt that takes its first sample at
sample number `r`: sample `r` and `r + 1` are those of the two resets, the low byte of the
result register is in samples `r + 2 .. r + 9`, the high byte in `r + 10 .. r + 17`. -/
def lineTemperature (line : Nat → Bool) (r : Nat) : ℚ :=
  scaled (lineByte line (r + 2)) (lineByte line (r + 10))

/-- The state of the bus after `k` passes through the body of the retry loop. -/
def afterAttempts : Nat → Bus → Bus
  | 0, bus => bus
  | k + 1, bus => afterAttempts k (attempt bus).2

/-- The number of calls of `reset` recorded in a trace. -/
def resetCalls (tr : List Ev) : Nat :=
  tr.count (Ev.call Prim.reset)

/-- The number of calls of `readBit` recorded in a trace. -/
def readBitCalls (tr : List Ev) : Nat :=
  tr.count (Ev.call Prim.readBit)

/-- The waits of `ThisThread::sleep_for` recorded in a trace, in milliseconds. -/
def sleeps : List Ev → List Nat
  | [] => []
  | Ev.sleepMs ms :: rest => ms :: sleeps rest
  | _ :: rest => sleeps rest

/-- Loopback: the line shows, at the `k`-th of the next eight samples taken after the state
`after`, the bit handed to the `k`-th call of `writeBit` made between the states `before`
and `after`. -/
def loopback (before after : Bus) : Prop :=
  ∀ k < 8, some (after.line (after.reads + k)) =
    ((writtenBits after.trace).drop (writtenBits before.trace).length)[k]?

/-- A released line on which nothing has been done, whose level at the `k`-th sample is
bit `k` of `pattern`. -/
def busWith (pattern : Nat) : Bus :=
  { mode := PinMode.input, latch := false, line := fun k => pattern.testBit k, reads := 0,
    trace := [] }

/-- The state-change and banner lines of a serial log, in order: every message other than
a formatted reading. -/
def notifications : List Msg → List String
  | [] => []
  | Msg.text s :: rest => s :: notifications rest
  | Msg.currentTemperature _ :: rest => notifications rest

/-- The values of the formatted readings (`"Current Temperature: ..."`) of a serial log,
in order. -/
def numericLines : List Msg → List ℚ
  | [] => []
  | Msg.text _ :: rest => numericLines rest
  | Msg.currentTemperature t :: rest => t :: numericLines rest

/-- Whether one of the ticks carries the exit command at its poll. -/
def exitsIn (ticks : List Tick) : Bool :=
  ticks.any (fun u => decide (u.poll = some 'x'))

/-- The actions performed on the bus between the state `before` and the later state
`after`. -/
def since (before after : Bus) : List Ev :=
  after.trace.drop before.trace.length

/-- The microseconds of `wait_us` a sequence of actions spends with the pin driving the line
low (pin in output mode with latch 0), when it starts with the pin in mode `mode` and the
latch at `latch`. -/
def lowUs : PinMode → Bool → List Ev → Nat
  | _, _, [] => 0
  | _, latch, Ev.output :: rest => lowUs PinMode.output latch rest
  | _, latch, Ev.input :: rest => lowUs PinMode.input latch rest
  | mode, _, Ev.drive level :: rest => lowUs mode level rest
  | mode, latch, Ev.waitUs us :: rest =>
    (if mode = PinMode.output ∧ latch = false then us else 0) + lowUs mode latch rest
  | mode, latch, _ :: rest => lowUs mode latch rest

/-- The microseconds of `wait_us` in a sequence of actions. -/
def totalUs : List Ev → Nat
  | [] => 0
  | Ev.waitUs us :: rest => us + totalUs rest
  | _ :: rest => totalUs rest

/-- The levels sampled by `dataPin.read()` in a sequence of actions, in order. -/
def samples : List Ev → List Bool
  | [] => []
  | Ev.read level :: rest => level :: samples rest
  | _ :: rest => samples rest

/-- The invariant of the head of the control loop: once a valid reading was obtained, the
actuator is on exactly when the remembered temperature is above the cutoff. -/
def Settled (s : Sys) : Prop :=
  s.hasValidReading = true → (s.motorControl = true ↔ s.lastValidTemperature > 28)

/-- The actions of one call `writeBit(bit)`: one write slot. -/
def slotEvents (bit : Bool) : List Ev :=
  [Ev.call (Prim.writeBit bit), Ev.output, Ev.drive false, Ev.waitUs (if bit then 6 else 60),
    Ev.input, Ev.waitUs (if bit then 64 else 10)]

/-- Whether a sequence of actions runs inside a critical section of its own: started with
the section held or not (`held`), every pin operation and every wait is performed with the
section held, and the section is released at the end. Call markers are not actions of the
program and are skipped. -/
def guarded : Bool → List Ev → Bool
  | held, [] => !held
  | _, Ev.critEnter :: rest => guarded true rest
  | _, Ev.critExit :: rest => guarded false rest
  | held, Ev.call _ :: rest => guarded held rest
  | held, _ :: rest => held && guarded held rest

/-- Whether an action enters or leaves a critical section. -/
def Ev.isCritical : Ev → Bool
  | Ev.critEnter => true
  | Ev.critExit => true
  | _ => false

/-! ## The bus driver: basic facts -/

theorem writeBit_line (bit : Bool) (bus : Bus) : (writeBit bit bus).line = bus.line := rfl

theorem writeBit_reads (bit : Bool) (bus : Bus) : (writeBit bit bus).reads = bus.reads := rfl

theorem writeBit_mode (bit : Bool) (bus : Bus) : (writeBit bit bus).mode = PinMode.input := rfl

theorem writeBit_trace (bit : Bool) (bus : Bus) :
    (writeBit bit bus).trace = bus.trace ++
      [Ev.call (Prim.writeBit bit), Ev.output, Ev.drive false,
        Ev.waitUs (if bit then 6 else 60), Ev.input, Ev.waitUs (if bit then 64 else 10)] := by
  simp [writeBit, Bus.enter, Bus.output, Bus.assign, Bus.wait_us, Bus.input]

theorem writeByteLoop_line (n byte : Nat) (bus : Bus) :
    (writeByteLoop n byte bus).line = bus.line := by
  induction n generalizing byte bus with
  | zero => rfl
  | succ n ih => rw [writeByteLoop, ih, writeBit_line]

theorem writeByteLoop_reads (n byte : Nat) (bus : Bus) :
    (writeByteLoop n byte bus).reads = bus.reads := by
  induction n generalizing byte bus with
  | zero => rfl
  | succ n ih => rw [writeByteLoop, ih, writeBit_reads]

theorem writeByte_line (byte : Nat) (bus : Bus) : (writeByte byte bus).line = bus.line :=
  writeByteLoop_line _ _ _

theorem writeByte_reads (byte : Nat) (bus : Bus) : (writeByte byte bus).reads = bus.reads :=
  writeByteLoop_reads _ _ _

theorem readBit_fst (bus : Bus) : (readBit bus).1 = bus.line bus.reads := rfl

theorem readBit_line (bus : Bus) : (readBit bus).2.line = bus.line := rfl

theorem readBit_reads (bus : Bus) : (readBit bus).2.reads = bus.reads + 1 := rfl

theorem reset_fst (bus : Bus) : (reset bus).1 = !bus.line bus.reads := rfl

theorem reset_line (bus : Bus) : (reset bus).2.line = bus.line := rfl

theorem reset_reads (bus : Bus) : (reset bus).2.reads = bus.reads + 1 := rfl

theorem reset_trace (bus : Bus) :
    (reset bus).2.trace = bus.trace ++ resetEvents (bus.line bus.reads) := by
  simp [reset, resetEvents, Bus.enter, Bus.output, Bus.assign, Bus.wait_us, Bus.input, Bus.read]

theorem readByteLoop_line (n i value : Nat) (bus : Bus) :
    (readByteLoop n i value bus).2.line = bus.line := by
  induction n generalizing i value bus with
  | zero => rfl
  | succ n ih => rw [readByteLoop, ih, readBit_line]

theorem readByteLoop_reads (n i value : Nat) (bus : Bus) :
    (readByteLoop n i value bus).2.reads = bus.reads + n := by
  induction n generalizing i value bus with
  | zero => rfl
  | succ n ih =>
    rw [readByteLoop, ih, readBit_reads]
    omega

theorem or_bit_eq_add (value i : Nat) (hv : value < 2 ^ i) (hi : i < 8) :
    (value ||| (1 <<< i)) % 256 = value + 2 ^ i := by
  have h1 : value ||| (1 <<< i) = 2 ^ i + value := by
    rw [Nat.one_shiftLeft, Nat.lor_comm]
    have := Nat.mul_add_lt_is_or hv 1
    simpa using this.symm
  have h2 : (2 : Nat) ^ (i + 1) ≤ 2 ^ 8 := Nat.pow_le_pow_right (by norm_num) (by omega)
  have h3 : (2 : Nat) ^ (i + 1) = 2 * 2 ^ i := by ring
  rw [h1]
  have : 2 ^ i + value < 256 := by
    norm_num at h2
    omega
  rw [Nat.mod_eq_of_lt this]
  omega

theorem readByteLoop_fst (n i value : Nat) (bus : Bus) (hv : value < 2 ^ i) (hn : i + n ≤ 8) :
    (readByteLoop n i value bus).1 = value + lineValue bus.line bus.reads i n := by
  induction n generalizing i value bus with
  | zero => rfl
  | succ n ih =>
    rw [readByteLoop, lineValue]
    have h3 : (2 : Nat) ^ (i + 1) = 2 * 2 ^ i := by ring
    by_cases hb : bus.line bus.reads = true
    · simp only [readBit_fst, hb, if_true]
      rw [ih _ _ _ (by rw [or_bit_eq_add value i hv (by omega)]; omega) (by omega),
        or_bit_eq_add value i hv (by omega), readBit_line, readBit_reads]
      omega
    · simp only [readBit_fst, hb, if_false, Bool.false_eq_true, reduceIte]
      rw [ih _ _ _ (by omega) (by omega), readBit_line, readBit_reads]
      simp

theorem readByte_fst (bus : Bus) : (readByte bus).1 = lineByte bus.line bus.reads := by
  have := readByteLoop_fst 8 0 0 bus (by norm_num) (by norm_num)
  simpa [readByte, lineByte] using this

theorem readByte_line (bus : Bus) : (readByte bus).2.line = bus.line :=
  readByteLoop_line _ _ _ _

theorem readByte_reads (bus : Bus) : (readByte bus).2.reads = bus.reads + 8 :=
  readByteLoop_reads _ _ _ _

theorem lineValue_lt (line : Nat → Bool) (start i n : Nat) :
    lineValue line start i n + 2 ^ i ≤ 2 ^ (i + n) := by
  induction n generalizing start i with
  | zero => simp [lineValue]
  | succ n ih =>
    rw [lineValue]
    have h := ih (start + 1) (i + 1)
    have h3 : (2 : Nat) ^ (i + 1) = 2 * 2 ^ i := by ring
    have h4 : i + 1 + n = i + (n + 1) := by omega
    rw [h4] at h
    split_ifs <;> omega

theorem lineByte_lt (line : Nat → Bool) (start : Nat) : lineByte line start < 256 := by
  have := lineValue_lt line start 0 8
  simp at this
  unfold lineByte
  omega

/-! ## The acquisition: basic facts -/

section Sealed

seal reset writeByte readByte


theorem attempt_fst (bus : Bus) :
    (attempt bus).1 =
      if bus.line bus.reads = false ∧ bus.line (bus.reads + 1) = false ∧
          -55 ≤ lineTemperature bus.line bus.reads ∧ lineTemperature bus.line bus.reads ≤ 125
      then some (lineTemperature bus.line bus.reads) else none := by
  unfold attempt
  simp only [reset_fst]
  have e2 : (Bus.sleep_for 800 (writeByte 0x44 (writeByte 0xCC (reset bus).2))).line
      (Bus.sleep_for 800 (writeByte 0x44 (writeByte 0xCC (reset bus).2))).reads
      = bus.line (bus.reads + 1) := by
    simp [Bus.sleep_for, writeByte_line, writeByte_reads, reset_line, reset_reads]
  have e3 : scaled (readByte (writeByte 0xBE (writeByte 0xCC
        (reset (Bus.sleep_for 800 (writeByte 0x44 (writeByte 0xCC (reset bus).2)))).2))).1
      (readByte (readByte (writeByte 0xBE (writeByte 0xCC
        (reset (Bus.sleep_for 800 (writeByte 0x44 (writeByte 0xCC (reset bus).2)))).2))).2).1
      = lineTemperature bus.line bus.reads := by
    simp [lineTemperature, readByte_fst, readByte_line, readByte_reads, Bus.sleep_for,
      writeByte_line, writeByte_reads, reset_line, reset_reads, Nat.add_assoc]
  simp only [e2, e3]
  by_cases h1 : bus.line bus.reads = true
  · simp [h1]
  · by_cases h2 : bus.line (bus.reads + 1) = true
    · simp [h1, h2]
    · by_cases hr : -55 ≤ lineTemperature bus.line bus.reads ∧
          lineTemperature bus.line bus.reads ≤ 125
      · simp [h1, h2, hr]
      · have hr2 : ¬ (lineTemperature bus.line bus.reads ≥ -55 ∧
            lineTemperature bus.line bus.reads ≤ 125) := hr
        simp only [Bool.not_eq_true] at h1 h2
        simp only [h1, h2, Bool.not_false, Bool.not_true, Bool.false_eq_true, if_false,
          if_neg hr2, true_and, if_neg hr]

theorem attempt_range (bus : Bus) (v : ℚ) (h : (attempt bus).1 = some v) :
    -55 ≤ v ∧ v ≤ 125 := by
  rw [attempt_fst] at h
  split_ifs at h with hc
  simp at h
  rw [← h]
  exact hc.2.2

theorem readTemperatureLoop_succ (retries : Nat) (bus : Bus) :
    readTemperatureLoop (retries + 1) bus =
      match (attempt bus).1 with
      | some v => (v, (attempt bus).2)
      | none => readTemperatureLoop retries (attempt bus).2 := by
  rw [readTemperatureLoop]
  rcases attempt bus with ⟨_ | v, b⟩ <;> rfl

theorem attempt_trace_of_absent (bus : Bus) (h : bus.line bus.reads = true) :
    attempt bus = (none, (reset bus).2) := by
  unfold attempt
  simp [reset_fst, h]

end Sealed

theorem writtenBits_append (a b : List Ev) :
    writtenBits (a ++ b) = writtenBits a ++ writtenBits b := by
  induction a with
  | nil => rfl
  | cons e rest ih =>
    cases e with
    | call p => cases p <;> simp [writtenBits, ih]
    | _ => simp [writtenBits, ih]

theorem writeByteLoop_written (n byte : Nat) (bus : Bus) (hb : byte < 256) :
    writtenBits (writeByteLoop n byte bus).trace =
      writtenBits bus.trace ++ (List.range n).map (fun i => byte.testBit i) := by
  induction n generalizing byte bus with
  | zero => simp [writeByteLoop]
  | succ n ih =>
    have hs : byte >>> 1 < 256 := by
      rw [Nat.shiftRight_eq_div_pow]
      exact lt_of_le_of_lt (Nat.div_le_self _ _) hb
    rw [writeByteLoop, Nat.mod_eq_of_lt hs, ih _ _ hs, writeBit_trace, writtenBits_append,
      List.range_succ_eq_map]
    simp only [writtenBits, List.map_cons, List.map_map, List.append_assoc, List.cons_append,
      List.nil_append, List.append_cancel_left_eq, List.cons.injEq]
    constructor
    · rw [Nat.testBit_zero, Nat.and_one_is_mod]
      rcases Nat.mod_two_eq_zero_or_one byte with h | h <;> simp [h]
    · apply List.map_congr_left
      intro i _
      simp [Nat.testBit_shiftRight, Nat.add_comm]

theorem lineValue_of_bits (line : Nat → Bool) (b start i n : Nat)
    (h : ∀ k < n, line (start + k) = b.testBit (i + k)) :
    lineValue line start i n = (b / 2 ^ i % 2 ^ n) * 2 ^ i := by
  induction n generalizing start i with
  | zero => simp [lineValue, Nat.mod_one]
  | succ n ih =>
    have h0 : line start = b.testBit i := by simpa using h 0 (by omega)
    have hrest : ∀ k < n, line (start + 1 + k) = b.testBit (i + 1 + k) := by
      intro k hk
      have := h (k + 1) (by omega)
      rw [show start + 1 + k = start + (k + 1) by omega, show i + 1 + k = i + (k + 1) by omega]
      exact this
    rw [lineValue, ih _ _ hrest, h0, Nat.testBit_to_div_mod]
    have e1 : b / 2 ^ (i + 1) = b / 2 ^ i / 2 := by
      rw [pow_succ, Nat.div_div_eq_div_mul]
    have e2 : b / 2 ^ i % 2 ^ (n + 1) = b / 2 ^ i % 2 + 2 * (b / 2 ^ i / 2 % 2 ^ n) := by
      rw [pow_succ, Nat.mul_comm (2 ^ n) 2, Nat.mod_mul]
    rw [e1, e2, pow_succ]
    rcases Nat.mod_two_eq_zero_or_one (b / 2 ^ i) with hx | hx
    · simp [hx]
      ring
    · simp [hx]
      ring

/-! ## The control loop: basic facts -/

theorem thresholdStep_motor (temperature : ℚ) (s : Sys) :
    (thresholdStep temperature s).motorControl =
      if temperature ≠ failureMarker then decide (temperature > 28)
      else if s.hasValidReading then decide (s.lastValidTemperature > 28)
      else s.motorControl := by
  unfold thresholdStep
  cases hm : s.motorControl <;>
    split_ifs <;> simp_all [Sys.print_message, Sys.setMotor, Sys.display]

theorem thresholdStep_known (temperature : ℚ) (s : Sys) :
    (thresholdStep temperature s).known =
      if temperature ≠ failureMarker then some temperature else s.known := by
  unfold thresholdStep Sys.known
  cases hm : s.motorControl <;> cases hv : s.hasValidReading <;>
    split_ifs <;> simp_all [Sys.print_message, Sys.setMotor, Sys.display]

theorem exitPoll_known (poll : Option Char) (s : Sys) :
    (exitPoll poll s).1.known = s.known := by
  unfold exitPoll Sys.known
  cases poll with
  | none => rfl
  | some c => by_cases hc : c = 'x' <;> simp [hc, Sys.print_message, Sys.setMotor, Sys.display]

theorem exitPoll_continue (poll : Option Char) (s : Sys) (h : (exitPoll poll s).2 = false) :
    (exitPoll poll s).1 = s := by
  unfold exitPoll at h ⊢
  cases poll with
  | none => rfl
  | some c => by_cases hc : c = 'x' <;> simp_all

theorem exitPoll_exit (poll : Option Char) (s : Sys) :
    (exitPoll poll s).2 = true ↔ poll = some 'x' := by
  unfold exitPoll
  cases poll with
  | none => simp
  | some c => by_cases hc : c = 'x' <;> simp [hc]

theorem exitPoll_motor_of_exit (poll : Option Char) (s : Sys)
    (h : (exitPoll poll s).2 = true) : (exitPoll poll s).1.motorControl = false := by
  unfold exitPoll at h ⊢
  cases poll with
  | none => simp at h
  | some c => by_cases hc : c = 'x' <;> simp_all [Sys.print_message, Sys.setMotor, Sys.display]

theorem sprayLoop_cons (t : Tick) (rest : List Tick) (s : Sys) :
    sprayLoop (t :: rest) s =
      if (exitPoll t.poll (thresholdStep t.temperature s)).2 = true then
        Outcome.returned (exitPoll t.poll (thresholdStep t.temperature s)).1
      else sprayLoop rest (thresholdStep t.temperature s) := by
  rw [sprayLoop]
  rcases h : exitPoll t.poll (thresholdStep t.temperature s) with ⟨s1, b⟩
  cases b
  · have h2 := exitPoll_continue t.poll (thresholdStep t.temperature s) (by rw [h])
    rw [h] at h2
    simp at h2
    simp [h2]
  · simp

/-- The loop run on ticks is the loop run on the bus, for the ticks the bus produces. -/
theorem sprayLoopOnBus_eq (polls : List (Option Char)) (bus : Bus) (s : Sys) :
    sprayLoopOnBus polls bus s = sprayLoop (ticksOnBus polls bus) s := by
  induction polls generalizing bus s with
  | nil => rfl
  | cons poll rest ih =>
    rw [sprayLoopOnBus, ticksOnBus, sprayLoop]
    simp only
    rcases exitPoll poll (thresholdStep (readTemperature bus).1 s) with ⟨s1, b⟩
    cases b
    · exact ih _ _
    · rfl

theorem applicable_append (readings : List ℚ) (t : ℚ) :
    applicable (readings ++ [t]) = if t ≠ failureMarker then some t else applicable readings := by
  simp [applicable, List.foldl_append]

theorem sprayLoop_running_known (ticks : List Tick) (s s1 : Sys)
    (h : sprayLoop ticks s = Outcome.running s1) :
    s1.known = (ticks.map Tick.temperature).foldl
      (fun acc t => if t ≠ failureMarker then some t else acc) s.known := by
  induction ticks generalizing s with
  | nil =>
    simp [sprayLoop] at h
    simp [h]
  | cons t rest ih =>
    rw [sprayLoop_cons] at h
    split_ifs at h
    have := ih _ h
    rw [this, thresholdStep_known]
    simp

theorem sprayEntry_motor (s : Sys) : (sprayEntry s).motorControl = s.motorControl := rfl

theorem sprayEntry_known (s : Sys) : (sprayEntry s).known = none := rfl

theorem sprayLoop_returned_motor (ticks : List Tick) (s s1 : Sys)
    (h : sprayLoop ticks s = Outcome.returned s1) : s1.motorControl = false := by
  induction ticks generalizing s with
  | nil => simp [sprayLoop] at h
  | cons t rest ih =>
    rw [sprayLoop_cons] at h
    split_ifs at h with hx
    · simp at h
      rw [← h]
      exact exitPoll_motor_of_exit _ _ hx
    · exact ih _ h

theorem sprayLoop_running_polls (ticks : List Tick) (s s1 : Sys)
    (h : sprayLoop ticks s = Outcome.running s1) : ∀ t ∈ ticks, t.poll ≠ some 'x' := by
  induction ticks generalizing s with
  | nil => simp
  | cons t rest ih =>
    rw [sprayLoop_cons] at h
    split_ifs at h with hx
    intro u hu
    rcases List.mem_cons.1 hu with rfl | hu
    · intro hp
      exact hx ((exitPoll_exit _ _).2 hp)
    · exact ih _ h u hu

theorem SessionInv.step (readings : List ℚ) (s : Sys) (temperature : ℚ)
    (h : SessionInv readings s) :
    SessionInv (readings ++ [temperature]) (thresholdStep temperature s) := by
  obtain ⟨hm, hk⟩ := h
  constructor
  · intro hon
    rw [thresholdStep_motor] at hon
    by_cases hv : temperature ≠ failureMarker
    · rw [if_pos hv] at hon
      exact ⟨temperature, by simp, hv, by simpa using hon⟩
    · rw [if_neg hv] at hon
      cases hr : s.hasValidReading
      · rw [hr] at hon
        simp at hon
        obtain ⟨r, hr1, hr2⟩ := hm hon
        exact ⟨r, by simp [hr1], hr2⟩
      · rw [hr] at hon
        simp at hon
        have hk1 := hk s.lastValidTemperature (by simp [Sys.known, hr])
        exact ⟨_, by simp [hk1.1], hk1.2, hon⟩
  · intro T hT
    rw [thresholdStep_known] at hT
    by_cases hv : temperature ≠ failureMarker
    · rw [if_pos hv] at hT
      simp at hT
      subst hT
      exact ⟨by simp, hv⟩
    · rw [if_neg hv] at hT
      have := hk T hT
      exact ⟨by simp [this.1], this.2⟩

theorem sprayLoop_running_inv (ticks : List Tick) (readings : List ℚ) (s s1 : Sys)
    (hs : SessionInv readings s) (h : sprayLoop ticks s = Outcome.running s1) :
    SessionInv (readings ++ ticks.map Tick.temperature) s1 := by
  induction ticks generalizing s readings with
  | nil =>
    simp [sprayLoop] at h
    simpa [← h] using hs
  | cons t rest ih =>
    rw [sprayLoop_cons] at h
    split_ifs at h
    have := ih _ _ (hs.step _ _ t.temperature) h
    simpa using this

theorem mainPoll_motor (poll : Option Char) (s : Sys) :
    (mainPoll poll s).motorControl = s.motorControl := by
  unfold mainPoll
  cases poll with
  | none => rfl
  | some c => by_cases hc : c = '\r' <;> simp [hc, Sys.print_message, Sys.display]

theorem announce_motor (s : Sys) : (announce s).motorControl = s.motorControl := rfl

theorem sessionInv_entry (s : Sys) (h : s.motorControl = false) : SessionInv [] (sprayEntry s) := by
  constructor
  · intro hon
    rw [sprayEntry_motor, h] at hon
    cases hon
  · intro T hT
    rw [sprayEntry_known] at hT
    cases hT

/-- Where a run of the loop of `main` that starts with the actuator off can stand: at the
head of an iteration of `main` with the actuator off, or inside a session whose readings
account for the state of the actuator. -/
theorem mainLoop_inv (ticks : List MainTick) (s : Sys) (h : s.motorControl = false) :
    match mainLoop ticks s with
    | Where.atMain s1 => s1.motorControl = false
    | Where.inSession seen s1 => SessionInv (seen.map Tick.temperature) s1 := by
  induction ticks generalizing s with
  | nil => simpa [mainLoop] using h
  | cons t rest ih =>
    rw [mainLoop]
    unfold mainIteration
    simp only
    split_ifs with hsig
    · unfold temperatureSprayMode
      have hentry : (announce (mainPoll t.poll s)).motorControl = false := by
        rw [announce_motor, mainPoll_motor, h]
      cases hl : sprayLoop t.session (sprayEntry (announce (mainPoll t.poll s))) with
      | returned s1 =>
        simp only
        apply ih
        simpa [Sys.print_message] using sprayLoop_returned_motor _ _ _ hl
      | running s1 =>
        simp only
        simpa using sprayLoop_running_inv _ [] _ _ (sessionInv_entry _ hentry) hl
    · simp only
      apply ih
      simpa using (mainPoll_motor t.poll s).trans h

theorem mainInit_motor (s : Sys) : (mainInit s).motorControl = false := rfl

theorem known_eq_some (s : Sys) (T : ℚ) (h : s.known = some T) :
    s.hasValidReading = true ∧ s.lastValidTemperature = T := by
  unfold Sys.known at h
  cases hv : s.hasValidReading <;> simp_all

theorem thresholdStep_stale_hold (s : Sys) (hm : s.motorControl = true)
    (hv : s.hasValidReading = true) (hl : s.lastValidTemperature > 28) :
    thresholdStep failureMarker s = s := by
  unfold thresholdStep
  simp [hm, hv, hl]

theorem exitPoll_other (poll : Option Char) (s : Sys) (h : poll ≠ some 'x') :
    exitPoll poll s = (s, false) := by
  unfold exitPoll
  cases poll with
  | none => rfl
  | some c =>
    have hc : c ≠ 'x' := fun e => h (by rw [e])
    simp [hc]

theorem sprayLoop_stale_hold (fails : List Tick) (s : Sys) (hm : s.motorControl = true)
    (hv : s.hasValidReading = true) (hl : s.lastValidTemperature > 28)
    (hf : ∀ t ∈ fails, t.temperature = failureMarker ∧ t.poll ≠ some 'x') :
    sprayLoop fails s = Outcome.running s := by
  induction fails with
  | nil => rfl
  | cons t rest ih =>
    have ht := hf t (by simp)
    rw [sprayLoop_cons, ht.1, thresholdStep_stale_hold s hm hv hl, exitPoll_other _ _ ht.2]
    simp only [Bool.false_eq_true, if_false]
    exact ih (fun u hu => hf u (by simp [hu]))

theorem notifications_append (a b : List Msg) :
    notifications (a ++ b) = notifications a ++ notifications b := by
  induction a with
  | nil => rfl
  | cons m rest ih => cases m <;> simp [notifications, ih]

theorem thresholdStep_high_on (s : Sys) (temperature : ℚ) (hm : s.motorControl = true)
    (ht : temperature > 28) :
    thresholdStep temperature s =
      { s with lastValidTemperature := temperature, hasValidReading := true,
               serial := s.serial ++ [Msg.currentTemperature temperature] } := by
  have hne : temperature ≠ failureMarker := by
    intro e
    rw [e] at ht
    norm_num [failureMarker] at ht
  unfold thresholdStep
  simp [hne, ht, hm, Sys.print_message]

theorem exitsIn_cons (u : Tick) (rest : List Tick) :
    exitsIn (u :: rest) = (decide (u.poll = some 'x') || exitsIn rest) := by
  simp [exitsIn]

theorem sprayLoop_high_on (ticks : List Tick) (s : Sys) (hm : s.motorControl = true)
    (hhigh : ∀ u ∈ ticks, u.temperature > 28) :
    (sprayLoop ticks s).sys.motorWrites =
        s.motorWrites ++ (if exitsIn ticks then [false] else []) ∧
      notifications (sprayLoop ticks s).sys.serial =
        notifications s.serial ++
          (if exitsIn ticks then ["Exiting Temperature Spray Mode...\r\n"] else []) := by
  induction ticks generalizing s with
  | nil => simp [sprayLoop, Outcome.sys, exitsIn]
  | cons u rest ih =>
    have hu := hhigh u (by simp)
    rw [sprayLoop_cons, thresholdStep_high_on s _ hm hu, exitsIn_cons]
    by_cases hx : u.poll = some 'x'
    · rw [hx]
      simp [exitPoll, Outcome.sys, Sys.print_message, Sys.setMotor, Sys.display,
        notifications_append, notifications]
    · rw [exitPoll_other _ _ hx]
      simp only [Bool.false_eq_true, if_false, hx, decide_False, Bool.false_or]
      have := ih { s with lastValidTemperature := u.temperature, hasValidReading := true,
                          serial := s.serial ++ [Msg.currentTemperature u.temperature] }
        hm (fun v hv => hhigh v (by simp [hv]))
      simpa [notifications_append, notifications] using this

theorem thresholdStep_high_off (s : Sys) (temperature : ℚ) (hm : s.motorControl = false)
    (ht : temperature > 28) :
    (thresholdStep temperature s).motorControl = true ∧
    (thresholdStep temperature s).motorWrites = s.motorWrites ++ [true] ∧
    (thresholdStep temperature s).serial = s.serial ++
      [Msg.currentTemperature temperature,
        Msg.text "Motor ON - Temperature above threshold\r\n"] ∧
    (thresholdStep temperature s).lcd = s.lcd ++
      [LcdOp.cls, LcdOp.locate 0 0, LcdOp.scrollText "Disease Alert - High Temp Detected" 0 300,
        LcdOp.scrollText "Spraying Medicine Now" 1 300] := by
  have hne : temperature ≠ failureMarker := by
    intro e
    rw [e] at ht
    norm_num [failureMarker] at ht
  unfold thresholdStep
  simp [hne, ht, hm, Sys.print_message, Sys.setMotor, Sys.display]

theorem applicable_none (readings : List ℚ) (h : applicable readings = none) :
    ∀ r ∈ readings, r = failureMarker := by
  induction readings using List.reverseRecOn with
  | nil => simp
  | append_singleton rs t ih =>
    rw [applicable_append] at h
    by_cases hv : t ≠ failureMarker
    · rw [if_pos hv] at h
      cases h
    · rw [if_neg hv] at h
      intro r hr
      rcases List.mem_append.1 hr with hr | hr
      · exact ih h r hr
      · simp at hr
        rw [hr]
        exact not_not.1 hv

theorem exitPoll_motor (poll : Option Char) (s : Sys) :
    (exitPoll poll s).1.motorControl = if poll = some 'x' then false else s.motorControl := by
  by_cases hx : poll = some 'x'
  · rw [if_pos hx]
    exact exitPoll_motor_of_exit _ _ ((exitPoll_exit _ _).2 hx)
  · rw [if_neg hx, exitPoll_other _ _ hx]

/-! ## The claims about the control loop -/

/-- C1 (threshold rule). At the head of any iteration of a session, whatever the state at
the call and whatever was observed so far: if an applicable temperature `T` exists after
the acquisition of this iteration (the fresh reading when it is valid, else the most
recent valid reading of the session), then after the threshold step the actuator is on
exactly when `T > 28`; if no valid reading was obtained in the session, the threshold step
leaves the actuator as it was. In the latter case, when the session was entered with the
actuator off (as every session entered from `main` is), the exit poll of the iteration
leaves it as it was too, whatever it reads. -/
theorem threshold_rule (s0 s : Sys) (ticks : List Tick) (temperature : ℚ)
    (h : temperatureSprayMode ticks s0 = Outcome.running s) :
    ((thresholdStep temperature s).motorControl =
      match applicable (ticks.map Tick.temperature ++ [temperature]) with
      | some T => decide (T > 28)
      | none => s.motorControl) ∧
    (applicable (ticks.map Tick.temperature ++ [temperature]) = none →
      s0.motorControl = false →
      ∀ poll, (exitPoll poll (thresholdStep temperature s)).1.motorControl = s.motorControl) := by
  have hk := sprayLoop_running_known ticks (sprayEntry s0) s h
  rw [sprayEntry_known] at hk
  change s.known = applicable (ticks.map Tick.temperature) at hk
  have first : (thresholdStep temperature s).motorControl =
      match applicable (ticks.map Tick.temperature ++ [temperature]) with
      | some T => decide (T > 28)
      | none => s.motorControl := by
    rw [thresholdStep_motor, applicable_append]
    by_cases hv : temperature ≠ failureMarker
    · simp only [if_pos hv]
    · simp only [if_neg hv]
      rw [← hk]
      cases hr : s.hasValidReading <;> simp [Sys.known, hr]
  refine ⟨first, ?_⟩
  intro hnone hoff poll
  have hinv := sprayLoop_running_inv ticks [] _ _ (sessionInv_entry s0 hoff) h
  have hall := applicable_none _ hnone
  have hs : s.motorControl = false := by
    cases hm : s.motorControl
    · rfl
    · obtain ⟨r, hr, hr1, _⟩ := hinv.1 hm
      exact absurd (hall r (by simp at hr ⊢; exact Or.inl hr)) hr1
  rw [exitPoll_motor, first, hnone]
  simp [hs]

/-- Witness for C1: after a reading of 30.0, a failed acquisition keeps the actuator on
(the applicable temperature is the stale 30.0), and at exactly 28.0 it is switched off. -/
theorem threshold_rule_witness :
    (thresholdStep failureMarker (sprayLoop [⟨30, none⟩] (sprayEntry boardOff)).sys).motorControl
        = true ∧
      (thresholdStep 28 (sprayLoop [⟨30, none⟩] (sprayEntry boardOff)).sys).motorControl
        = false := by
  constructor
  · exact (threshold_rule boardOff (sprayLoop [⟨30, none⟩] (sprayEntry boardOff)).sys
      [⟨30, none⟩] failureMarker rfl).1.trans (by decide)
  · exact (threshold_rule boardOff (sprayLoop [⟨30, none⟩] (sprayEntry boardOff)).sys
      [⟨30, none⟩] 28 rfl).1.trans (by decide)

/-- C2 (hard safety invariant). In every run of `main`, from any board state and for any
observations: at the head of an iteration of the loop of `main` the actuator is off (it is
never on outside a session); at the head of an iteration of the control loop, and after the
threshold step of that iteration, an actuator that is on has behind it a reading returned
by `readTemperature` in the current session that is valid and strictly above 28.0. -/
theorem motor_on_needs_high_reading (ticks : List MainTick) (s0 : Sys) :
    match main ticks s0 with
    | Where.atMain s => s.motorControl = false
    | Where.inSession seen s =>
      (s.motorControl = true →
        ∃ t ∈ seen, t.temperature ≠ failureMarker ∧ t.temperature > 28) ∧
      ∀ temperature : ℚ, (thresholdStep temperature s).motorControl = true →
        ∃ r ∈ seen.map Tick.temperature ++ [temperature], r ≠ failureMarker ∧ r > 28 := by
  have h := mainLoop_inv ticks (mainInit s0) (mainInit_motor s0)
  unfold main
  cases hw : mainLoop ticks (mainInit s0) with
  | atMain s =>
    rw [hw] at h
    exact h
  | inSession seen s =>
    rw [hw] at h
    simp only at h ⊢
    constructor
    · intro hon
      obtain ⟨r, hr, hr2⟩ := h.1 hon
      obtain ⟨t, ht, rfl⟩ := List.mem_map.1 hr
      exact ⟨t, ht, hr2⟩
    · intro temperature hon
      exact (h.step _ _ temperature).1 hon

/-- C3 (fail-safe on exit). From every controller state (actuator on or off), for every
temperature returned in the iteration and whatever would follow, an exit poll that reads
`'x'` makes the loop return in that iteration, with the actuator off and `false` the last
value written to it. And `temperatureSprayMode` returns only with the actuator off; as
long as it has not returned, no exit poll has read `'x'`. -/
theorem failsafe_on_exit (s s0 : Sys) (temperature : ℚ) (rest ticks : List Tick) :
    (∃ s1, sprayLoop (⟨temperature, some 'x'⟩ :: rest) s = Outcome.returned s1 ∧
      s1.motorControl = false ∧ s1.motorWrites.getLast? = some false) ∧
    (match temperatureSprayMode ticks s0 with
      | Outcome.returned s1 => s1.motorControl = false
      | Outcome.running _ => ∀ t ∈ ticks, t.poll ≠ some 'x') := by
  constructor
  · refine ⟨(exitPoll (some 'x') (thresholdStep temperature s)).1, ?_, ?_, ?_⟩
    · rw [sprayLoop_cons, if_pos ((exitPoll_exit _ _).2 rfl)]
    · exact exitPoll_motor_of_exit _ _ ((exitPoll_exit _ _).2 rfl)
    · simp [exitPoll, Sys.print_message, Sys.setMotor, Sys.display]
  · unfold temperatureSprayMode
    cases hl : sprayLoop ticks (sprayEntry s0) with
    | returned s1 => exact sprayLoop_returned_motor _ _ _ hl
    | running s1 => exact sprayLoop_running_polls _ _ _ hl

/-- C4, as the code has it: `temperatureSprayMode` does not write the actuator on entry
(the state of the actuator and the list of writes to it are those at the call); in every
run of `main` the actuator is off whenever the loop of `main` is at the head of an
iteration, so a session entered in that iteration starts with the actuator off. -/
theorem session_entry_keeps_motor (s s0 : Sys) (ticks : List MainTick) (poll : Option Char) :
    (sprayEntry s).motorControl = s.motorControl ∧
    (sprayEntry s).motorWrites = s.motorWrites ∧
    (match main ticks s0 with
      | Where.atMain s1 => (sprayEntry (announce (mainPoll poll s1))).motorControl = false
      | Where.inSession _ _ => True) := by
  refine ⟨rfl, rfl, ?_⟩
  have h := mainLoop_inv ticks (mainInit s0) (mainInit_motor s0)
  unfold main
  cases hw : mainLoop ticks (mainInit s0) with
  | atMain s1 =>
    rw [hw] at h
    simp only at h ⊢
    rw [sprayEntry_motor, announce_motor, mainPoll_motor, h]
  | inSession seen s1 => trivial

/-- C4 as stated fails: called with the actuator on, `temperatureSprayMode` reaches its
loop with the actuator still on and without having written to it, and a first iteration
whose acquisition fails runs with the actuator on. -/
theorem session_entry_not_forced_off :
    (sprayEntry boardOn).motorControl = true ∧
    (sprayEntry boardOn).motorWrites = [] ∧
    (thresholdStep failureMarker (sprayEntry boardOn)).motorControl = true := by
  decide

/-! ## The claims about the acquisition and the bus driver -/

/-- C5 (acquisition result). For every behaviour of the line: `readTemperature` makes at
most three passes through its retry loop and returns the value of the first pass that
yields one, leaving the bus as that pass left it (no further pass is made); when none of
the three passes yields a value it returns the marker `-999.0`. A pass yields a value
exactly when the line is low at the samples of both resets (presence detected twice) and
the scaled value of the two bytes then read lies in `[-55, 125]`, and the value is that
scaled value. Hence a result is the marker or lies in `[-55, 125]`, and the marker does
not lie in that range. -/
theorem acquisition_result (bus : Bus) :
    ((∃ k v, k < 3 ∧ (∀ j < k, (attempt (afterAttempts j bus)).1 = none) ∧
        (attempt (afterAttempts k bus)).1 = some v ∧
        readTemperature bus = (v, afterAttempts (k + 1) bus)) ∨
      ((∀ j < 3, (attempt (afterAttempts j bus)).1 = none) ∧
        readTemperature bus = (failureMarker, afterAttempts 3 bus))) ∧
    (∀ b : Bus, (attempt b).1 =
      if b.line b.reads = false ∧ b.line (b.reads + 1) = false ∧
          -55 ≤ lineTemperature b.line b.reads ∧ lineTemperature b.line b.reads ≤ 125
      then some (lineTemperature b.line b.reads) else none) ∧
    ((readTemperature bus).1 = failureMarker ∨
      (-55 ≤ (readTemperature bus).1 ∧ (readTemperature bus).1 ≤ 125)) ∧
    ¬ (-55 ≤ failureMarker ∧ failureMarker ≤ 125) := by
  have first : (∃ k v, k < 3 ∧ (∀ j < k, (attempt (afterAttempts j bus)).1 = none) ∧
        (attempt (afterAttempts k bus)).1 = some v ∧
        readTemperature bus = (v, afterAttempts (k + 1) bus)) ∨
      ((∀ j < 3, (attempt (afterAttempts j bus)).1 = none) ∧
        readTemperature bus = (failureMarker, afterAttempts 3 bus)) := by
    unfold readTemperature
    cases h1 : (attempt bus).1 with
    | some v =>
      left
      refine ⟨0, v, by norm_num, by simp, h1, ?_⟩
      rw [readTemperatureLoop_succ, h1]
      rfl
    | none =>
      cases h2 : (attempt (attempt bus).2).1 with
      | some v =>
        left
        refine ⟨1, v, by norm_num, ?_, h2, ?_⟩
        · intro j hj
          interval_cases j
          exact h1
        · rw [readTemperatureLoop_succ, h1]
          simp only
          rw [readTemperatureLoop_succ, h2]
          rfl
      | none =>
        cases h3 : (attempt (attempt (attempt bus).2).2).1 with
        | some v =>
          left
          refine ⟨2, v, by norm_num, ?_, h3, ?_⟩
          · intro j hj
            interval_cases j
            · exact h1
            · exact h2
          · rw [readTemperatureLoop_succ, h1]
            simp only
            rw [readTemperatureLoop_succ, h2]
            simp only
            rw [readTemperatureLoop_succ, h3]
            rfl
        | none =>
          right
          constructor
          · intro j hj
            interval_cases j
            · exact h1
            · exact h2
            · exact h3
          · rw [readTemperatureLoop_succ, h1]
            simp only
            rw [readTemperatureLoop_succ, h2]
            simp only
            rw [readTemperatureLoop_succ, h3]
            rfl
  refine ⟨first, attempt_fst, ?_, by norm_num [failureMarker]⟩
  rcases first with ⟨k, v, _, _, hv, hr⟩ | ⟨_, hr⟩
  · right
    rw [hr]
    exact attempt_range _ _ hv
  · left
    rw [hr]

/-- C6 (retry exhaustion). When the line is high at the next three samples, so that each
call of `reset` sees no presence pulse and returns `false`, `readTemperature` returns the
marker `-999.0` and all it does on the bus is three calls of `reset`: no bit is written,
no bit is read and the conversion wait is not made. -/
theorem retry_exhaustion (bus : Bus) (h : ∀ k < 3, bus.line (bus.reads + k) = true) :
    (readTemperature bus).1 = failureMarker ∧
    (readTemperature bus).2.trace =
      bus.trace ++ (resetEvents true ++ resetEvents true ++ resetEvents true) ∧
    resetCalls (resetEvents true ++ resetEvents true ++ resetEvents true) = 3 ∧
    writtenBits (resetEvents true ++ resetEvents true ++ resetEvents true) = [] ∧
    readBitCalls (resetEvents true ++ resetEvents true ++ resetEvents true) = 0 ∧
    sleeps (resetEvents true ++ resetEvents true ++ resetEvents true) = [] ∧
    (reset bus).1 = false ∧ (reset (reset bus).2).1 = false ∧
    (reset (reset (reset bus).2).2).1 = false := by
  have l0 : bus.line bus.reads = true := by simpa using h 0 (by norm_num)
  have l1 : (reset bus).2.line (reset bus).2.reads = true := by
    rw [reset_line, reset_reads]
    exact h 1 (by norm_num)
  have l2 : (reset (reset bus).2).2.line (reset (reset bus).2).2.reads = true := by
    rw [reset_line, reset_reads, reset_line, reset_reads]
    exact h 2 (by norm_num)
  have hr : readTemperature bus = (failureMarker, (reset (reset (reset bus).2).2).2) := by
    unfold readTemperature
    rw [readTemperatureLoop_succ, attempt_trace_of_absent bus l0]
    simp only
    rw [readTemperatureLoop_succ, attempt_trace_of_absent _ l1]
    simp only
    rw [readTemperatureLoop_succ, attempt_trace_of_absent _ l2]
    rfl
  refine ⟨by rw [hr], ?_, by decide, by decide, by decide, by decide, ?_, ?_, ?_⟩
  · rw [hr]
    simp only
    rw [reset_trace, reset_trace, reset_trace, l2, l1, l0]
    simp
  · rw [reset_fst, l0]
    rfl
  · rw [reset_fst, l1]
    rfl
  · rw [reset_fst, l2]
    rfl

/-- Witness for C6: a line that is high at every sample (no device answers). -/
theorem retry_exhaustion_witness :
    (readTemperature (busWith 7)).1 = failureMarker ∧
      resetCalls (readTemperature (busWith 7)).2.trace = 3 := by
  have h := retry_exhaustion (busWith 7) (by decide)
  refine ⟨h.1, ?_⟩
  rw [h.2.1]
  decide

/-- C7 (scaling formula). For all bytes `lsb` and `msb`, the raw value formed by
`(msb << 8) | lsb` and converted to `int16_t` is the two's-complement reading `s` of the
16 bit number `msb * 256 + lsb`, and the temperature is `s * 0.0625 = s / 16`; the value
returned by a pass of `readTemperature` is this temperature for the two bytes on the line.
Raw `0x0191` is 401 and gives 25.0625, raw `0xFF5E` is -162 and gives -10.125. -/
theorem scaling_formula (lsb msb : Nat) (hl : lsb < 256) (hm : msb < 256) :
    rawTemp lsb msb =
      (if msb * 256 + lsb < 32768 then ((msb * 256 + lsb : Nat) : Int)
        else ((msb * 256 + lsb : Nat) : Int) - 65536) ∧
    scaled lsb msb = (rawTemp lsb msb : ℚ) * 0.0625 ∧
    scaled lsb msb = (rawTemp lsb msb : ℚ) / 16 ∧
    (∀ (bus : Bus) (v : ℚ), (attempt bus).1 = some v →
      v = scaled (lineByte bus.line (bus.reads + 2)) (lineByte bus.line (bus.reads + 10))) ∧
    rawTemp 0x91 0x01 = 401 ∧ scaled 0x91 0x01 = 25.0625 ∧
    rawTemp 0x5E 0xFF = -162 ∧ scaled 0x5E 0xFF = -10.125 := by
  have hor : msb <<< 8 ||| lsb = msb * 256 + lsb := by
    have := Nat.mul_add_lt_is_or (show lsb < 2 ^ 8 by simpa using hl) msb
    rw [Nat.shiftLeft_eq, Nat.mul_comm msb (2 ^ 8), ← this]
  have hlt : msb * 256 + lsb < 65536 := by omega
  refine ⟨?_, rfl, ?_, ?_, by decide, ?_, by decide, ?_⟩
  · unfold rawTemp toInt16
    rw [hor, Nat.mod_eq_of_lt hlt]
  · unfold scaled
    norm_num
    ring
  · intro bus v hv
    rw [attempt_fst] at hv
    split_ifs at hv
    simp at hv
    rw [← hv]
    rfl
  · have : rawTemp 0x91 0x01 = 401 := by decide
    unfold scaled
    rw [this]
    norm_num
  · have : rawTemp 0x5E 0xFF = -162 := by decide
    unfold scaled
    rw [this]
    norm_num

/-- Witness for C7: the bytes `0x5E`, `0xFF`. -/
theorem scaling_formula_witness : scaled 0x5E 0xFF = (rawTemp 0x5E 0xFF : ℚ) / 16 :=
  (scaling_formula 0x5E 0xFF (by decide) (by decide)).2.2.1

/-- C8 (encoding round trip). For every byte `b` and every state of the bus, on a loopback
line `writeByte(b)` followed at once by `readByte()` returns `b`. -/
theorem encoding_round_trip (b : Nat) (bus : Bus) (hb : b < 256)
    (hloop : loopback bus (writeByte b bus)) :
    (readByte (writeByte b bus)).1 = b := by
  have hw : writtenBits (writeByte b bus).trace =
      writtenBits bus.trace ++ (List.range 8).map (fun i => b.testBit i) := by
    unfold writeByte
    rw [Nat.mod_eq_of_lt hb]
    exact writeByteLoop_written 8 b bus hb
  have hbits : ∀ k < 8, (writeByte b bus).line ((writeByte b bus).reads + k) =
      b.testBit (0 + k) := by
    intro k hk
    have := hloop k hk
    rw [hw, List.drop_left] at this
    rw [List.getElem?_map, List.getElem?_range hk] at this
    simpa using this
  rw [readByte_fst, lineByte, lineValue_of_bits _ b _ 0 8 hbits]
  simp
  omega

/-- Witness for C8: the byte `0xA5` written to and read back from a line that shows the
bits of `0xA5`. -/
theorem encoding_round_trip_witness :
    (readByte (writeByte 0xA5 (busWith 0xA5))).1 = 0xA5 :=
  encoding_round_trip 0xA5 (busWith 0xA5) (by decide) (by unfold loopback; decide)

/-! ## The claims about sequences of iterations -/

/-- C9 (stale fallback). From any state of a session, after an iteration that reads the
valid value 30.0 (which leaves the actuator on) and is not ended by the exit command: for
every number `k` of further iterations whose acquisition returns the failure marker and
whose poll does not read `'x'`, the loop is still running after them with the actuator on,
and the serial log, the formatted readings in it and the writes to the actuator are those
that were there after the iteration that read 30.0: no reading is logged in the `k`
iterations. -/
theorem stale_fallback (s : Sys) (p0 : Option Char) (fails : List Tick)
    (hp0 : p0 ≠ some 'x')
    (hf : ∀ t ∈ fails, t.temperature = failureMarker ∧ t.poll ≠ some 'x') :
    sprayLoop [⟨30, p0⟩] s = Outcome.running (thresholdStep 30 s) ∧
    (thresholdStep 30 s).motorControl = true ∧
    ∀ k ≤ fails.length, ∃ s1,
      sprayLoop (⟨30, p0⟩ :: fails.take k) s = Outcome.running s1 ∧
      s1.motorControl = true ∧
      s1.serial = (thresholdStep 30 s).serial ∧
      numericLines s1.serial = numericLines (thresholdStep 30 s).serial ∧
      s1.motorWrites = (thresholdStep 30 s).motorWrites := by
  have hm : (thresholdStep 30 s).motorControl = true := by
    rw [thresholdStep_motor]
    norm_num [failureMarker]
  have hk : (thresholdStep 30 s).known = some 30 := by
    rw [thresholdStep_known]
    norm_num [failureMarker]
  obtain ⟨hv, hl⟩ := known_eq_some _ _ hk
  refine ⟨?_, hm, ?_⟩
  · rw [sprayLoop_cons, exitPoll_other _ _ hp0]
    rfl
  · intro k _
    refine ⟨thresholdStep 30 s, ?_, hm, rfl, rfl, rfl⟩
    rw [sprayLoop_cons, exitPoll_other _ _ hp0]
    simp only [Bool.false_eq_true, if_false]
    exact sprayLoop_stale_hold _ _ hm hv (by rw [hl]; norm_num)
      (fun t ht => hf t (List.mem_of_mem_take ht))

/-- Witness for C9: a reading of 30.0 followed by two failed acquisitions, the second with
a byte other than `'x'` at the poll. -/
theorem stale_fallback_witness :
    ∃ s1, sprayLoop [⟨30, none⟩, ⟨failureMarker, none⟩, ⟨failureMarker, some 'y'⟩] boardOff
        = Outcome.running s1 ∧
      s1.motorControl = true ∧ numericLines s1.serial = [30] := by
  obtain ⟨s1, h1, h2, _, h4, _⟩ :=
    (stale_fallback boardOff none [⟨failureMarker, none⟩, ⟨failureMarker, some 'y'⟩]
      (by decide) (by decide)).2.2 2 (by decide)
  refine ⟨s1, h1, h2, ?_⟩
  rw [h4]
  decide

/-- C10 (idempotent transitions). From any state with the actuator off, for every
non-empty sequence of iterations whose readings are all above 28.0 (hence valid): the
first iteration switches the actuator on, and over the whole sequence the only writes to
the actuator are that one `true` (followed by the `false` of the exit, if one of the polls
reads `'x'` and ends the session), and the only notification printed is one
`"Motor ON - Temperature above threshold"` (followed by the exit banner in that case). -/
theorem idempotent_transitions (s : Sys) (t : Tick) (rest : List Tick)
    (hoff : s.motorControl = false) (hhigh : ∀ u ∈ t :: rest, u.temperature > 28) :
    (thresholdStep t.temperature s).motorWrites = s.motorWrites ++ [true] ∧
    (sprayLoop (t :: rest) s).sys.motorWrites =
      s.motorWrites ++ [true] ++ (if exitsIn (t :: rest) then [false] else []) ∧
    notifications (sprayLoop (t :: rest) s).sys.serial =
      notifications s.serial ++ ["Motor ON - Temperature above threshold\r\n"] ++
        (if exitsIn (t :: rest) then ["Exiting Temperature Spray Mode...\r\n"] else []) := by
  obtain ⟨h1, h2, h3, _⟩ := thresholdStep_high_off s t.temperature hoff (hhigh t (by simp))
  refine ⟨h2, ?_⟩
  rw [sprayLoop_cons, exitsIn_cons]
  by_cases hx : t.poll = some 'x'
  · rw [hx]
    simp [exitPoll, Outcome.sys, Sys.print_message, Sys.setMotor, Sys.display, h2, h3,
      notifications_append, notifications]
  · rw [exitPoll_other _ _ hx]
    simp only [Bool.false_eq_true, if_false, hx, decide_False, Bool.false_or]
    have := sprayLoop_high_on rest (thresholdStep t.temperature s) h1
      (fun v hv => hhigh v (by simp [hv]))
    rw [h2, h3] at this
    simpa [notifications_append, notifications] using this

/-- Witness for C10: three readings above the cutoff from a board with the actuator
off. -/
theorem idempotent_transitions_witness :
    (sprayLoop [⟨30, none⟩, ⟨31, none⟩, ⟨29, some 'q'⟩] boardOff).sys.motorWrites = [true] ∧
      notifications (sprayLoop [⟨30, none⟩, ⟨31, none⟩, ⟨29, some 'q'⟩] boardOff).sys.serial
        = ["Motor ON - Temperature above threshold\r\n"] := by
  have h := idempotent_transitions boardOff ⟨30, none⟩ [⟨31, none⟩, ⟨29, some 'q'⟩] rfl
    (by decide)
  exact ⟨h.2.1.trans (by decide), h.2.2.trans (by decide)⟩

/-! ## Further facts about the bus driver -/

theorem since_append (bus after : Bus) (evs : List Ev) (h : after.trace = bus.trace ++ evs) :
    since bus after = evs := by
  unfold since
  rw [h, List.drop_left]

theorem readBit_trace (bus : Bus) :
    (readBit bus).2.trace = bus.trace ++
      [Ev.call Prim.readBit, Ev.output, Ev.drive false, Ev.waitUs 6, Ev.input, Ev.waitUs 9,
        Ev.read (bus.line bus.reads), Ev.waitUs 55] := by
  simp [readBit, Bus.enter, Bus.output, Bus.assign, Bus.wait_us, Bus.input, Bus.read]

theorem reset_mode (bus : Bus) : (reset bus).2.mode = PinMode.input := rfl

theorem readBit_mode (bus : Bus) : (readBit bus).2.mode = PinMode.input := rfl

theorem writeByteLoop_mode (n byte : Nat) (bus : Bus) :
    (writeByteLoop n byte bus).mode = if n = 0 then bus.mode else PinMode.input := by
  induction n generalizing byte bus with
  | zero => rfl
  | succ n ih =>
    rw [writeByteLoop, ih, writeBit_mode]
    simp

theorem readByteLoop_mode (n i value : Nat) (bus : Bus) :
    (readByteLoop n i value bus).2.mode = if n = 0 then bus.mode else PinMode.input := by
  induction n generalizing i value bus with
  | zero => rfl
  | succ n ih =>
    rw [readByteLoop, ih, readBit_mode]
    simp

theorem writeByte_mode (byte : Nat) (bus : Bus) : (writeByte byte bus).mode = PinMode.input := by
  unfold writeByte
  rw [writeByteLoop_mode]
  rfl

theorem readByte_mode (bus : Bus) : (readByte bus).2.mode = PinMode.input := by
  unfold readByte
  rw [readByteLoop_mode]
  rfl

theorem testBit_eq_shift_and (b i : Nat) :
    b.testBit i = decide ((b >>> i) &&& 1 = 1) := by
  rw [Nat.testBit_to_div_mod, Nat.shiftRight_eq_div_pow, Nat.and_one_is_mod]

section SealedMode

seal reset writeByte readByte

theorem attempt_mode (bus : Bus) : (attempt bus).2.mode = PinMode.input := by
  unfold attempt
  simp only
  split_ifs <;> simp only [reset_mode, readByte_mode]

end SealedMode

theorem readTemperatureLoop_mode (retries : Nat) (bus : Bus) :
    (readTemperatureLoop retries bus).2.mode =
      if retries = 0 then bus.mode else PinMode.input := by
  induction retries generalizing bus with
  | zero => rfl
  | succ n ih =>
    rw [readTemperatureLoop_succ]
    cases h : (attempt bus).1 with
    | some v => simp [attempt_mode]
    | none =>
      simp only
      rw [ih, attempt_mode]
      simp

theorem afterAttempts_mode (k : Nat) (bus : Bus) :
    (afterAttempts (k + 1) bus).mode = PinMode.input := by
  induction k generalizing bus with
  | zero => exact attempt_mode bus
  | succ k ih =>
    rw [afterAttempts]
    exact ih _

theorem thresholdStep_settled (temperature : ℚ) (s : Sys) :
    Settled (thresholdStep temperature s) := by
  intro hv
  have hm := thresholdStep_motor temperature s
  have hk := thresholdStep_known temperature s
  by_cases hvalid : temperature ≠ failureMarker
  · rw [if_pos hvalid] at hm hk
    obtain ⟨_, hl⟩ := known_eq_some _ _ hk
    rw [hm, hl]
    simp
  · rw [if_neg hvalid] at hm hk
    have hk2 : (thresholdStep temperature s).known =
        some (thresholdStep temperature s).lastValidTemperature := by
      simp [Sys.known, hv]
    rw [hk] at hk2
    obtain ⟨hv0, hl0⟩ := known_eq_some _ _ hk2
    rw [hv0] at hm
    simp only [if_true] at hm
    rw [hm, ← hl0]
    simp

theorem sprayLoop_running_settled (ticks : List Tick) (s s1 : Sys) (hs : Settled s)
    (h : sprayLoop ticks s = Outcome.running s1) : Settled s1 := by
  induction ticks generalizing s with
  | nil =>
    simp [sprayLoop] at h
    rw [← h]
    exact hs
  | cons t rest ih =>
    rw [sprayLoop_cons] at h
    split_ifs at h
    exact ih _ (thresholdStep_settled _ _) h

theorem thresholdStep_failed_of_settled (s : Sys) (hs : Settled s) :
    thresholdStep failureMarker s = s := by
  unfold Settled at hs
  unfold thresholdStep
  cases hv : s.hasValidReading
  · simp
  · have := hs hv
    by_cases hl : s.lastValidTemperature > 28
    · have hm : s.motorControl = true := this.2 hl
      simp [hl, hm]
    · have hm : s.motorControl = false := by
        cases hm : s.motorControl
        · rfl
        · exact absurd (this.1 hm) hl
      simp [hl, hm]

theorem writeByteLoop_trace (n byte : Nat) (bus : Bus) (hb : byte < 256) :
    (writeByteLoop n byte bus).trace =
      bus.trace ++ ((List.range n).map (fun i => slotEvents (byte.testBit i))).flatten := by
  induction n generalizing byte bus with
  | zero => simp [writeByteLoop]
  | succ n ih =>
    have hs : byte >>> 1 < 256 := by
      rw [Nat.shiftRight_eq_div_pow]
      exact lt_of_le_of_lt (Nat.div_le_self _ _) hb
    have h0 : (byte &&& 1 != 0) = byte.testBit 0 := by
      rw [Nat.testBit_zero, Nat.and_one_is_mod]
      rcases Nat.mod_two_eq_zero_or_one byte with h | h <;> simp [h]
    rw [writeByteLoop, Nat.mod_eq_of_lt hs, ih _ _ hs, writeBit_trace, List.range_succ_eq_map,
      h0]
    simp only [List.map_cons, List.map_map, List.flatten_cons, List.append_assoc]
    congr 2
    congr 1
    apply List.map_congr_left
    intro i _
    simp [Nat.testBit_shiftRight, Nat.add_comm]

/-! ## The claims about the wire protocol -/

/-- C11 (least significant bit first). For every byte `b` and every state of the bus,
`writeByte(b)` performs exactly eight write slots and nothing else, and the `i`-th call of
`writeBit` (`i = 0..7`) is passed bit `i` of `b`, that is `(b >> i) & 1`; the skip-address
command `0xCC` goes out as `0,0,1,1,0,0,1,1`. -/
theorem lsb_first_wire_order (b : Nat) (bus : Bus) (hb : b < 256) :
    since bus (writeByte b bus) =
      ((List.range 8).map (fun i => slotEvents (decide ((b >>> i) &&& 1 = 1)))).flatten ∧
    writtenBits (since bus (writeByte b bus)) =
      (List.range 8).map (fun i => decide ((b >>> i) &&& 1 = 1)) ∧
    (writtenBits (since bus (writeByte b bus))).length = 8 ∧
    (∀ i < 8, (writtenBits (since bus (writeByte b bus)))[i]? =
      some (decide ((b >>> i) &&& 1 = 1))) ∧
    writtenBits (since bus (writeByte 0xCC bus)) =
      [false, false, true, true, false, false, true, true] := by
  have htr : ∀ c, c < 256 → since bus (writeByte c bus) =
      ((List.range 8).map (fun i => slotEvents (decide ((c >>> i) &&& 1 = 1)))).flatten := by
    intro c hc
    apply since_append
    unfold writeByte
    rw [Nat.mod_eq_of_lt hc, writeByteLoop_trace 8 c bus hc]
    simp only [testBit_eq_shift_and]
  have hbits : ∀ c, c < 256 → writtenBits (since bus (writeByte c bus)) =
      (List.range 8).map (fun i => decide ((c >>> i) &&& 1 = 1)) := by
    intro c hc
    have hw := writeByteLoop_written 8 c bus hc
    have ht : (writeByte c bus).trace = bus.trace ++ since bus (writeByte c bus) := by
      rw [htr c hc]
      unfold writeByte
      rw [Nat.mod_eq_of_lt hc, writeByteLoop_trace 8 c bus hc]
      simp only [testBit_eq_shift_and]
    unfold writeByte at ht hw
    rw [Nat.mod_eq_of_lt hc] at ht
    rw [ht, writtenBits_append] at hw
    have := List.append_cancel_left hw
    unfold writeByte
    rw [Nat.mod_eq_of_lt hc, this]
    simp only [testBit_eq_shift_and]
  refine ⟨htr b hb, hbits b hb, ?_, ?_, ?_⟩
  · rw [hbits b hb]
    simp
  · intro i hi
    rw [hbits b hb, List.getElem?_map, List.getElem?_range hi]
    rfl
  · rw [hbits 0xCC (by norm_num)]
    decide

/-- Witness for C11: the read-scratchpad command `0xBE` on an idle line. -/
theorem lsb_first_wire_order_witness :
    writtenBits (since (busWith 0) (writeByte 0xBE (busWith 0))) =
      [false, true, true, true, true, true, false, true] :=
  (lsb_first_wire_order 0xBE (busWith 0) (by decide)).2.1.trans (by decide)

/-- C13 (reset handshake). From every state of the bus, `reset()` does exactly this: it
drives the line low, waits 480 us, releases the line, waits 70 us, samples the line once,
waits 410 us. The line is driven low for 480 us, one sample is taken, and the result is
`true` exactly when that sample is low. There is one pass only: no retry. -/
theorem reset_handshake (bus : Bus) :
    since bus (reset bus).2 =
      [Ev.call Prim.reset, Ev.output, Ev.drive false, Ev.waitUs 480, Ev.input, Ev.waitUs 70,
        Ev.read (bus.line bus.reads), Ev.waitUs 410] ∧
    lowUs bus.mode bus.latch (since bus (reset bus).2) = 480 ∧
    samples (since bus (reset bus).2) = [bus.line bus.reads] ∧
    (reset bus).2.reads = bus.reads + 1 ∧
    ((reset bus).1 = true ↔ bus.line bus.reads = false) ∧
    resetCalls (since bus (reset bus).2) = 1 := by
  have h : since bus (reset bus).2 =
      [Ev.call Prim.reset, Ev.output, Ev.drive false, Ev.waitUs 480, Ev.input, Ev.waitUs 70,
        Ev.read (bus.line bus.reads), Ev.waitUs 410] :=
    since_append _ _ _ (reset_trace bus)
  refine ⟨h, ?_, ?_, rfl, ?_, ?_⟩
  · rw [h]
    simp [lowUs]
  · rw [h]
    simp [samples]
  · rw [reset_fst]
    simp
  · rw [h]
    simp [resetCalls]

/-- C14 (bit timing asymmetry). From every state of the bus, `writeBit(1)` holds the line
low for 6 us and `writeBit(0)` for 60 us, so the low pulse of a 1 is strictly shorter; the
released time after it is 64 us and 10 us, and the whole slot takes 70 us for both. -/
theorem bit_timing_asymmetry (bus : Bus) :
    lowUs bus.mode bus.latch (since bus (writeBit true bus)) = 6 ∧
    lowUs bus.mode bus.latch (since bus (writeBit false bus)) = 60 ∧
    lowUs bus.mode bus.latch (since bus (writeBit true bus)) <
      lowUs bus.mode bus.latch (since bus (writeBit false bus)) ∧
    totalUs (since bus (writeBit true bus)) = 6 + 64 ∧
    totalUs (since bus (writeBit false bus)) = 60 + 10 ∧
    totalUs (since bus (writeBit true bus)) = totalUs (since bus (writeBit false bus)) ∧
    totalUs (since bus (writeBit true bus)) = 70 := by
  have h1 := since_append _ _ _ (writeBit_trace true bus)
  have h0 := since_append _ _ _ (writeBit_trace false bus)
  rw [h1, h0]
  simp [lowUs, totalUs]

/-- C15 (line released on return). From every state of the data pin and for every
argument, `reset`, `writeBit`, `readBit`, `writeByte` and `readByte` return with the pin
in input mode; so does every pass of the retry loop of `readTemperature`, and
`readTemperature` itself, whether it returns a value or the failure marker. -/
theorem line_released (bus : Bus) (bit : Bool) (byte k : Nat) :
    (reset bus).2.mode = PinMode.input ∧
    (writeBit bit bus).mode = PinMode.input ∧
    (readBit bus).2.mode = PinMode.input ∧
    (writeByte byte bus).mode = PinMode.input ∧
    (readByte bus).2.mode = PinMode.input ∧
    (attempt bus).2.mode = PinMode.input ∧
    (afterAttempts (k + 1) bus).mode = PinMode.input ∧
    (readTemperature bus).2.mode = PinMode.input :=
  ⟨reset_mode bus, writeBit_mode bit bus, readBit_mode bus, writeByte_mode byte bus,
    readByte_mode bus, attempt_mode bus, afterAttempts_mode k bus,
    (readTemperatureLoop_mode 3 bus).trans rfl⟩

/-! ## Further claims about the control loop -/

/-- C12 (exit command). In any iteration, from any state and for any temperature, the loop
is left exactly when the exit poll reads the character `'x'`: the loop on the ticks
`t :: rest` returns in its first iteration when `t.poll` is `'x'` and goes on with `rest`
otherwise. A poll that reads nothing, or reads a byte other than `'x'`, leaves the whole
state as it was, in particular the actuator and `lastValidTemperature`. -/
theorem exit_command (s : Sys) (t : Tick) (rest : List Tick) :
    ((exitPoll t.poll (thresholdStep t.temperature s)).2 = true ↔ t.poll = some 'x') ∧
    (sprayLoop (t :: rest) s =
      if t.poll = some 'x' then
        Outcome.returned (exitPoll (some 'x') (thresholdStep t.temperature s)).1
      else sprayLoop rest (thresholdStep t.temperature s)) ∧
    ((∃ s1, sprayLoop [t] s = Outcome.returned s1) ↔ t.poll = some 'x') ∧
    (∀ c : Char, c ≠ 'x' → exitPoll (some c) s = (s, false)) ∧
    exitPoll none s = (s, false) := by
  have hloop : sprayLoop (t :: rest) s =
      if t.poll = some 'x' then
        Outcome.returned (exitPoll (some 'x') (thresholdStep t.temperature s)).1
      else sprayLoop rest (thresholdStep t.temperature s) := by
    rw [sprayLoop_cons]
    by_cases hx : t.poll = some 'x'
    · rw [if_pos ((exitPoll_exit _ _).2 hx), if_pos hx, hx]
    · rw [if_neg (fun h => hx ((exitPoll_exit _ _).1 h)), if_neg hx]
  refine ⟨exitPoll_exit _ _, hloop, ?_, ?_, rfl⟩
  · rw [sprayLoop_cons]
    by_cases hx : t.poll = some 'x'
    · rw [if_pos ((exitPoll_exit _ _).2 hx)]
      simp [hx]
    · rw [if_neg (fun h => hx ((exitPoll_exit _ _).1 h))]
      simp [sprayLoop, hx]
  · intro c hc
    exact exitPoll_other _ _ (by simpa using hc)

/-- C16 (the stale-fallback branch makes no transition). At the head of every iteration of
a session, whatever the state of the board (and of the actuator) at the call: once a valid
reading was obtained, the actuator is on exactly when `lastValidTemperature > 28`. So the
threshold step of an iteration whose acquisition fails leaves the whole state as it was:
it does not write the actuator and prints nothing, in particular none of the
`"... Using last valid temperature"` lines. An iteration whose acquisition fails leaves
the state as it was and the loop running, unless its poll reads `'x'`: then the loop
returns after the actions of the exit alone. -/
theorem stale_branch_transition_free (s0 s : Sys) (ticks : List Tick)
    (h : temperatureSprayMode ticks s0 = Outcome.running s) :
    (s.hasValidReading = true → (s.motorControl = true ↔ s.lastValidTemperature > 28)) ∧
    thresholdStep failureMarker s = s ∧
    (thresholdStep failureMarker s).motorControl = s.motorControl ∧
    (thresholdStep failureMarker s).motorWrites = s.motorWrites ∧
    (thresholdStep failureMarker s).serial = s.serial ∧
    (∀ poll, sprayLoop [⟨failureMarker, poll⟩] s =
      if poll = some 'x' then Outcome.returned (exitPoll (some 'x') s).1
      else Outcome.running s) := by
  have hs : Settled s := by
    refine sprayLoop_running_settled ticks (sprayEntry s0) s ?_ h
    intro hv
    cases hv
  have hfix := thresholdStep_failed_of_settled s hs
  refine ⟨hs, hfix, by rw [hfix], by rw [hfix], by rw [hfix], ?_⟩
  intro poll
  rw [sprayLoop_cons]
  simp only
  rw [hfix]
  by_cases hp : poll = some 'x'
  · rw [if_pos ((exitPoll_exit _ _).2 hp), if_pos hp, hp]
  · rw [exitPoll_other _ _ hp, if_neg hp]
    rfl

/-- Witness for C16: a session called with the actuator on that reads 20.0 and then fails
to read: the failed iteration finds the actuator off and leaves it off, silently. -/
theorem stale_branch_transition_free_witness :
    thresholdStep failureMarker (sprayLoop [⟨20, none⟩] (sprayEntry boardOn)).sys =
      (sprayLoop [⟨20, none⟩] (sprayEntry boardOn)).sys :=
  (stale_branch_transition_free boardOn (sprayLoop [⟨20, none⟩] (sprayEntry boardOn)).sys
    [⟨20, none⟩] rfl).2.1

/-! ## The claim about critical sections -/

/-- C17, as the code has it: none of the bus driver primitives `reset`, `writeBit`,
`readBit` enters or leaves a critical section. From every state of the bus and for either
bit, the actions of a call are pin operations and busy waits only, none of them is
performed inside a critical section of the primitive, and so the primitive leaves
interrupts and preemption as its caller has them. -/
theorem primitives_without_critical_section (bus : Bus) (bit : Bool) :
    (∀ e ∈ since bus (reset bus).2, e.isCritical = false) ∧
    (∀ e ∈ since bus (writeBit bit bus), e.isCritical = false) ∧
    (∀ e ∈ since bus (readBit bus).2, e.isCritical = false) ∧
    guarded false (since bus (reset bus).2) = false ∧
    guarded false (since bus (writeBit bit bus)) = false ∧
    guarded false (since bus (readBit bus).2) = false := by
  rw [since_append _ _ _ (reset_trace bus), since_append _ _ _ (writeBit_trace bit bus),
    since_append _ _ _ (readBit_trace bus)]
  simp [resetEvents, guarded, Ev.isCritical]

/-- C17 as stated fails: on an idle line, the actions of `reset()`, of `writeBit(1)`, of
`writeBit(0)` and of `readBit()` are not performed inside a critical section, and the
first thing `reset()` does is switch the pin to output, not enter a critical section.
(The same actions of `reset()` put between an enter and an exit would be.) -/
theorem primitives_not_in_critical_section :
    guarded false (since (busWith 0) (reset (busWith 0)).2) = false ∧
    guarded false (since (busWith 0) (writeBit true (busWith 0))) = false ∧
    guarded false (since (busWith 0) (writeBit false (busWith 0))) = false ∧
    guarded false (since (busWith 0) (readBit (busWith 0)).2) = false ∧
    since (busWith 0) (reset (busWith 0)).2 =
      [Ev.call Prim.reset, Ev.output, Ev.drive false, Ev.waitUs 480, Ev.input, Ev.waitUs 70,
        Ev.read false, Ev.waitUs 410] ∧
    guarded false (Ev.critEnter :: resetEvents false ++ [Ev.critExit]) = true := by
  decide

end Firmware
